import Mathlib

/-!
Verification of the ball-simulation physics core (src/balls.py).

The simulation state is embedded shallowly:

* Coordinates live in a `LinearOrderedField F`; every theorem about the real
  program instantiates `F := ℝ`.
* `math.hypot` is an external library call, so it is threaded through the
  model as an explicit parameter `hyp : F → F → F`; theorems about the real
  program instantiate it with `hypotR a b = Real.sqrt (a*a + b*b)`.
* Python objects are mutable and aliased (the grid holds references to the
  same `Ball` objects that the lists hold), so the store is a `List Ball`
  and the grid stores indices into that store.
* The globals `WIDTH`/`HEIGHT` are passed as parameters `W H`.
-/

namespace BallsSim

section Model

variable {F : Type} [LinearOrderedField F] [FloorRing F]

/-- `BALL_RADIUS = 15` (balls.py line 15). -/
def BALL_RADIUS : F := 15

/-- `ENLARGED_RADIUS = 100` (line 16). -/
def ENLARGED_RADIUS : F := 100

/-- `GRAVITY = 500` (line 17). -/
def GRAVITY : F := 500

/-- `VELOCITY_CAP = 300` (line 19). -/
def VELOCITY_CAP : F := 300

/-- `THROWN_VELOCITY_CAP = VELOCITY_CAP * 2` (line 20). -/
def THROWN_VELOCITY_CAP : F := VELOCITY_CAP * 2

/-- `FLOOR_SNAP_TOLERANCE = 3` (line 26). -/
def FLOOR_SNAP_TOLERANCE : F := 3

/-- `FLOOR_SNAP_VY_THRESHOLD = 10` (line 27). -/
def FLOOR_SNAP_VY_THRESHOLD : F := 10

/-- `NEIGHBOR_DAMPING_BASE = 0.90` (line 30). -/
def NEIGHBOR_DAMPING_BASE : F := 9 / 10

/-- `NEIGHBOR_DAMPING_MAX = 6` (line 31). -/
def NEIGHBOR_DAMPING_MAX : ℕ := 6

/-- `VISCOSITY = 0.0` (line 32). -/
def VISCOSITY : F := 0

/-- `DEFAULT_CELL_SIZE = 80` (line 35). -/
def DEFAULT_CELL_SIZE : F := 80

/-- `CONTAINER_RADIUS = 150` (line 39). -/
def CONTAINER_RADIUS : F := 150

/-- `PICKUP_TRANSITION_TIME = 1.0` (line 45). -/
def PICKUP_TRANSITION_TIME : F := 1

/-- `RELEASE_TRANSITION_TIME = 3.0` (line 46). -/
def RELEASE_TRANSITION_TIME : F := 3

/-- `THROW_MULTIPLIER = 8.0` (line 49). -/
def THROW_MULTIPLIER : F := 8

/-- `OFFSET_SPRING_THRESHOLD = 0.7` (line 56). -/
def OFFSET_SPRING_THRESHOLD : F := 7 / 10

/-- `OFFSET_SPRING_FACTOR = 0.9` (line 57). -/
def OFFSET_SPRING_FACTOR : F := 9 / 10

/-- An entity of the simulation, mirroring the fields set in `Ball.__init__`
(lines 83-96).  The `Container` (lines 182-189) is represented as an entity
with `held := true` (line 187: "Container is immovable"), `contained := false`
(it has no `contained` attribute, so Python's `hasattr` checks yield false)
and `isContainer := true` (standing for Python's `isinstance(_, Container)`). -/
structure Ball (F : Type) where
  x : F
  y : F
  vx : F
  vy : F
  radius : F
  held : Bool
  contained : Bool
  offx : F
  offy : F
  pickup_timer : F
  release_timer : F
  release_start_radius : F
  px : F
  py : F
  isContainer : Bool

/-- `Ball(x, y)` constructor (lines 83-96): fresh ball at `(x, y)`. -/
def Ball.new (x y : F) : Ball F :=
  { x := x, y := y, vx := 0, vy := 0, radius := BALL_RADIUS, held := false,
    contained := false, offx := 0, offy := 0, pickup_timer := 0,
    release_timer := 0, release_start_radius := BALL_RADIUS,
    px := x, py := y, isContainer := false }

/-- `Ball.update_size` (lines 98-115). -/
def Ball.update_size (dt : F) (b : Ball F) : Ball F :=
  if b.held then
    if b.pickup_timer > 0 then
      let t := b.pickup_timer - dt
      let t := if t < 0 then 0 else t
      let fraction := 1 - t / PICKUP_TRANSITION_TIME
      { b with pickup_timer := t,
               radius := BALL_RADIUS + (ENLARGED_RADIUS - BALL_RADIUS) * fraction }
    else
      { b with radius := ENLARGED_RADIUS }
  else if b.release_timer > 0 then
    let t := b.release_timer - dt
    let t := if t < 0 then 0 else t
    let fraction := t / RELEASE_TRANSITION_TIME
    { b with release_timer := t,
             radius := BALL_RADIUS + (b.release_start_radius - BALL_RADIUS) * fraction }
  else
    { b with radius := BALL_RADIUS }

/-- `Ball.apply_gravity` (lines 117-119). -/
def Ball.apply_gravity (dt : F) (b : Ball F) : Ball F :=
  if b.held = false ∧ b.contained = false then
    { b with vy := b.vy + GRAVITY * dt }
  else b

/-- `Ball.integrate` (lines 121-124). -/
def Ball.integrate (dt : F) (b : Ball F) : Ball F :=
  if b.held = false ∧ b.contained = false then
    { b with px := b.x + b.vx * dt, py := b.y + b.vy * dt }
  else b

/-- `Ball.enforce_boundaries` (lines 126-134): clamp the predicted position. -/
def Ball.enforce_boundaries (W H : F) (b : Ball F) : Ball F :=
  let b := if b.px - b.radius < 0 then { b with px := b.radius } else b
  let b := if b.px + b.radius > W then { b with px := W - b.radius } else b
  let b := if b.py - b.radius < 0 then { b with py := b.radius } else b
  if b.py + b.radius > H then { b with py := H - b.radius } else b

/-- `Container.enforce_boundaries` (lines 195-205): clamp the current
position, then copy it into the predicted position. -/
def Ball.container_enforce_boundaries (W H : F) (b : Ball F) : Ball F :=
  let b := if b.x - b.radius < 0 then { b with x := b.radius } else b
  let b := if b.x + b.radius > W then { b with x := W - b.radius } else b
  let b := if b.y - b.radius < 0 then { b with y := b.radius } else b
  let b := if b.y + b.radius > H then { b with y := H - b.radius } else b
  { b with px := b.x, py := b.y }

/-- Dispatch of `obj.enforce_boundaries()` in `solve_free_constraints`
(line 252) on the runtime type of the entity. -/
def enforceEntity (W H : F) (b : Ball F) : Ball F :=
  if b.isContainer then b.container_enforce_boundaries W H
  else b.enforce_boundaries W H

/-- The spatial grid: Python's `Grid.cells` dict maps a cell key to the list
of objects bucketed there (lines 210-229); objects are modelled by their
index in the current object store. -/
def GridMap : Type := ℤ × ℤ → List ℕ

/-- A cleared grid (`Grid.clear`, lines 214-215). -/
def emptyGrid : GridMap := fun _ => []

/-- Cell key of a position: `int(pos // DEFAULT_CELL_SIZE)` on both axes
(lines 224-225); Python's float floor-division is mathematical floor. -/
def cellOf (pos : F × F) : ℤ × ℤ :=
  (⌊pos.1 / (DEFAULT_CELL_SIZE : F)⌋, ⌊pos.2 / (DEFAULT_CELL_SIZE : F)⌋)

/-- Position used by the grid for an entity: current position for a
`Container`, predicted position for a ball (lines 218-223 and 233-238). -/
def gridPos (b : Ball F) : F × F :=
  if b.isContainer then (b.x, b.y) else (b.px, b.py)

/-- `Grid.add` (lines 217-229): append the object to its cell's bucket. -/
def gridAdd (g : GridMap) (key : ℤ × ℤ) (i : ℕ) : GridMap :=
  fun k => if k = key then g k ++ [i] else g k

/-- `Grid.get_neighbors` (lines 231-246): concatenation of the 3×3 block of
cells around `c`, in the source's `dx`-outer, `dy`-inner order. -/
def get_neighbors (g : GridMap) (c : ℤ × ℤ) : List ℕ :=
  g (c.1 - 1, c.2 - 1) ++ g (c.1 - 1, c.2) ++ g (c.1 - 1, c.2 + 1) ++
  g (c.1, c.2 - 1) ++ g (c.1, c.2) ++ g (c.1, c.2 + 1) ++
  g (c.1 + 1, c.2 - 1) ++ g (c.1 + 1, c.2) ++ g (c.1 + 1, c.2 + 1)

/-- `count_touching_neighbors` (lines 67-78): number of distinct non-container
neighbors within `radius_i + radius_j + 1` of ball `i`, capped at
`NEIGHBOR_DAMPING_MAX`. -/
def count_touching_neighbors (hyp : F → F → F) (g : GridMap)
    (objs : List (Ball F)) (i : ℕ) : ℕ :=
  match objs[i]? with
  | none => 0
  | some b =>
    let ns := get_neighbors g (cellOf (b.px, b.py))
    let count := ns.foldl (fun acc j =>
      if j = i then acc
      else match objs[j]? with
        | none => acc
        | some o =>
          if o.isContainer then acc
          else if hyp (b.px - o.px) (b.py - o.py) < b.radius + o.radius + 1
          then acc + 1 else acc) 0
    min count NEIGHBOR_DAMPING_MAX

/-- Body of the inner loop of `solve_free_constraints` (lines 255-279):
resolve the overlap of the ordered pair `(i, j)` in the store, in place.
A failed index lookup corresponds to no Python counterpart and is a no-op;
the caller only passes live indices. -/
def resolvePairAt (hyp : F → F → F) (objs : List (Ball F)) (i j : ℕ) :
    List (Ball F) :=
  match objs[i]?, objs[j]? with
  | some o, some t =>
    let dx := t.px - o.px
    let dy := t.py - o.py
    let dist := hyp dx dy
    if dist = 0 then objs
    else
      let min_dist := o.radius + t.radius
      if dist < min_dist then
        let overlap := min_dist - dist
        let ux := dx / dist
        let uy := dy / dist
        if o.held || o.contained then
          objs.set j { t with px := t.px + ux * overlap, py := t.py + uy * overlap }
        else if t.held || t.contained then
          objs.set i { o with px := o.px - ux * overlap, py := o.py - uy * overlap }
        else
          let correction := overlap / 2
          (objs.set i { o with px := o.px - ux * correction,
                               py := o.py - uy * correction }).set j
            { t with px := t.px + ux * correction, py := t.py + uy * correction }
      else objs
  | _, _ => objs

/-- Inner loop `for other in neighbors` of `solve_free_constraints`
(lines 255-279); `other is obj` (line 256) is index equality. -/
def solveNeighbors (hyp : F → F → F) (objs : List (Ball F)) (i : ℕ)
    (ns : List ℕ) : List (Ball F) :=
  ns.foldl (fun s j => if j = i then s else resolvePairAt hyp s i j) objs

/-- One iteration of the outer loop of `solve_free_constraints`
(lines 253-254): fetch the neighbors of object `i` from the grid at its
current position and resolve each pair in place. -/
def solveStep (hyp : F → F → F) (g : GridMap) (s : List (Ball F)) (i : ℕ) :
    List (Ball F) :=
  match s[i]? with
  | none => s
  | some o => solveNeighbors hyp s i (get_neighbors g (cellOf (gridPos o)))

/-- The pairwise overlap-resolution phase of `solve_free_constraints`
(lines 253-279): for each object in order, fetch its neighbors from the grid
at its current position and resolve each pair in place. -/
def solvePairsPhase (hyp : F → F → F) (g : GridMap) (objs : List (Ball F)) :
    List (Ball F) :=
  (List.range objs.length).foldl (solveStep hyp g) objs

/-- `solve_free_constraints` (lines 250-279): boundary enforcement for every
object, then the pairwise overlap-resolution phase.  `g` is the global grid
at the time of the call (in the main loop this is the grid built from the
previous frame's free balls, lines 574-583 of the previous iteration). -/
def solve_free_constraints (hyp : F → F → F) (W H : F) (g : GridMap)
    (objs : List (Ball F)) : List (Ball F) :=
  solvePairsPhase hyp g (objs.map (enforceEntity W H))

/-- `Ball.update_from_prediction` (lines 136-163).  `objs`/`i` identify the
ball inside the current store for the neighbor count; `g` is the grid that
was rebuilt from post-solve predicted positions (lines 574-583). -/
def Ball.update_from_prediction (hyp : F → F → F) (H dt : F) (g : GridMap)
    (objs : List (Ball F)) (i : ℕ) (b : Ball F) : Ball F :=
  if b.held = false ∧ b.contained = false then
    let nvx := (b.px - b.x) / dt
    let nvy := (b.py - b.y) / dt
    let n := count_touching_neighbors hyp g objs i
    let extra := (1 - VISCOSITY) + VISCOSITY * NEIGHBOR_DAMPING_BASE ^ n
    let nvx := nvx * extra
    let nvy := nvy * extra
    let speed := hyp nvx nvy
    let cap := if b.release_timer > 0 then THROWN_VELOCITY_CAP else VELOCITY_CAP
    let nvx := if speed > cap then nvx * (cap / speed) else nvx
    let nvy := if speed > cap then nvy * (cap / speed) else nvy
    let b := { b with vx := nvx, vy := nvy, x := b.px, y := b.py }
    if b.y + b.radius ≥ H - FLOOR_SNAP_TOLERANCE ∧
       |b.vy| < FLOOR_SNAP_VY_THRESHOLD then
      { b with y := H - b.radius, vy := 0, px := b.x, py := H - b.radius }
    else b
  else
    { b with vx := 0, vy := 0, x := b.px, y := b.py }

/-- The grid rebuild of lines 574-576: clear, then add every free ball at its
predicted position, in store order. -/
def rebuildGrid (objs : List (Ball F)) : GridMap :=
  (List.range objs.length).foldl (fun g i =>
    match objs[i]? with
    | none => g
    | some b => gridAdd g (cellOf (gridPos b)) i) emptyGrid

/-- The `update_from_prediction` sweep of lines 584-585, updating each ball
in store order (each update writes only the ball itself). -/
def updatePhase (hyp : F → F → F) (H dt : F) (g : GridMap)
    (objs : List (Ball F)) : List (Ball F) :=
  (List.range objs.length).foldl (fun s i =>
    match s[i]? with
    | none => s
    | some b => s.set i (b.update_from_prediction hyp H dt g s i)) objs

/-- The second floor-snap check of the main loop (lines 587-592). -/
def floorSnapPhase (H : F) (objs : List (Ball F)) : List (Ball F) :=
  objs.map fun b =>
    if b.held = false ∧ b.contained = false ∧
       b.y + b.radius ≥ H - FLOOR_SNAP_TOLERANCE ∧
       |b.vy| < FLOOR_SNAP_VY_THRESHOLD then
      let b := { b with y := H - b.radius, vy := 0 }
      { b with px := b.x, py := b.y }
    else b

/-- The global special-object check (lines 594-613) for the case where the
special object is the selected ball at index `si`: every other free ball
overlapping it is pushed out by the full overlap on its committed position. -/
def specialCheckPhase (hyp : F → F → F) (objs : List (Ball F)) (si : ℕ) :
    List (Ball F) :=
  match objs[si]? with
  | none => objs
  | some sp =>
    objs.mapIdx fun k b =>
      if k = si then b
      else
        let dx := b.x - sp.x
        let dy := b.y - sp.y
        let dist := hyp dx dy
        let min_dist := b.radius + sp.radius
        if dist < min_dist ∧ dist > 0 then
          let overlap := min_dist - dist
          let b := { b with x := b.x + dx / dist * overlap,
                            y := b.y + dy / dist * overlap }
          { b with px := b.x, py := b.y }
        else b

/-- One iteration of the main loop (lines 424-613) in the regime with no
input events and `container = None` — in that regime no ball has
`contained = true` (the flag is set only while a container exists, lines
481-523), so `free_balls == balls` and `free_objects == balls`.  `selected`
is `selected_ball` (as an index), `mouse` the pointer position, `g` the
global grid left over from the previous iteration. -/
def tick (hyp : F → F → F) (W H dt : F) (mouse : F × F) (selected : Option ℕ)
    (g : GridMap) (balls : List (Ball F)) : List (Ball F) :=
  -- selected-ball override, lines 546-553
  let balls := match selected with
    | none => balls
    | some i => match balls[i]? with
      | none => balls
      | some b => balls.set i { b with px := mouse.1, py := mouse.2,
                                       x := mouse.1, y := mouse.2,
                                       vx := 0, vy := 0 }
  -- size easing, lines 555-556
  let balls := balls.map (Ball.update_size dt)
  -- gravity and integration, lines 557-560
  let balls := balls.map (fun b => (b.apply_gravity dt).integrate dt)
  -- free-ball constraint solving, lines 562-567
  let balls := solve_free_constraints hyp W H g balls
  -- grid rebuild, lines 574-583
  let g2 := rebuildGrid balls
  -- velocity reconciliation, lines 584-585
  let balls := updatePhase hyp H dt g2 balls
  -- second floor snap, lines 587-592
  let balls := floorSnapPhase H balls
  -- global special-object check, lines 594-613
  match selected with
  | none => balls
  | some si => specialCheckPhase hyp balls si

/-- The ball branch of the `MOUSEBUTTONUP` handler for button 1
(lines 511-517): throw the held ball with the current mouse velocity. -/
def releaseHeldBall (mouse_velocity : F × F) (b : Ball F) : Ball F :=
  { b with vx := mouse_velocity.1 * THROW_MULTIPLIER,
           vy := mouse_velocity.2 * THROW_MULTIPLIER,
           held := false,
           release_timer := RELEASE_TRANSITION_TIME,
           release_start_radius := b.radius }

/-- Per-ball body of the `MOUSEBUTTONUP` handler for button 3
(lines 502-509): throw each contained ball with the current mouse velocity. -/
def releaseContainedBall (mouse_velocity : F × F) (b : Ball F) : Ball F :=
  if b.contained then
    let b := { b with vx := mouse_velocity.1 * THROW_MULTIPLIER,
                      vy := mouse_velocity.2 * THROW_MULTIPLIER }
    let b := if b.radius > BALL_RADIUS
             then { b with release_timer := RELEASE_TRANSITION_TIME } else b
    { b with contained := false, offx := 0, offy := 0 }
  else b

/-- The full button-3 `MOUSEBUTTONUP` handler over the ball list
(lines 501-510). -/
def releaseContainedBalls (mouse_velocity : F × F) (balls : List (Ball F)) :
    List (Ball F) :=
  balls.map (releaseContainedBall mouse_velocity)

/-- Capture of one ball by a freshly created container (lines 483-491),
for a ball whose distance to the container center is below the container
radius.  The randomly sampled polar offset is passed in as `(ox, oy)`
(the model of `r*cos(theta), r*sin(theta)` of lines 485-487). -/
def captureBall (cx cy ox oy : F) (b : Ball F) : Ball F :=
  let b := { b with contained := true, offx := ox, offy := oy }
  let b := { b with x := cx + ox, y := cy + oy }
  { b with px := b.x, py := b.y }

/-- Per-frame jitter update of a contained ball (lines 530-544); the sampled
jitter velocities are passed in as `(jx, jy)`. -/
def containedJitterUpdate (hyp : F → F → F) (cx cy cradius jx jy dt : F)
    (b : Ball F) : Ball F :=
  let nox := b.offx + jx * dt
  let noy := b.offy + jy * dt
  let max_offset := cradius - b.radius
  let current_offset := hyp nox noy
  let nox' := if current_offset > OFFSET_SPRING_THRESHOLD * max_offset
              then nox * OFFSET_SPRING_FACTOR else nox
  let noy' := if current_offset > OFFSET_SPRING_THRESHOLD * max_offset
              then noy * OFFSET_SPRING_FACTOR else noy
  let b := { b with offx := nox', offy := noy',
                    x := cx + nox', y := cy + noy' }
  { b with px := b.x, py := b.y }

/-- Overlap test of `add_balls_top` (lines 326-329): does the candidate
overlap any existing ball (current positions)? -/
def overlapsAny (hyp : F → F → F) (c : Ball F) (balls : List (Ball F)) : Bool :=
  balls.any fun b => decide (hyp (c.x - b.x) (c.y - b.y) < c.radius + b.radius)

/-- Loop of `add_balls_top` (lines 319-333).  `cand attempts` is the
position sampled by `random.uniform` at the given attempt number. -/
def add_balls_top_aux (hyp : F → F → F) (cand : ℕ → F × F) (num : ℕ)
    (count attempts : ℕ) (balls : List (Ball F)) : List (Ball F) :=
  if h : count < num ∧ attempts < 1000 then
    let c := Ball.new (cand attempts).1 (cand attempts).2
    if overlapsAny hyp c balls then
      add_balls_top_aux hyp cand num count (attempts + 1) balls
    else
      add_balls_top_aux hyp cand num (count + 1) (attempts + 1) (balls ++ [c])
  else balls
termination_by 1000 - attempts
decreasing_by
  all_goals omega

/-- `add_balls_top(num)` (lines 317-333). -/
def add_balls_top (hyp : F → F → F) (cand : ℕ → F × F) (num : ℕ)
    (balls : List (Ball F)) : List (Ball F) :=
  add_balls_top_aux hyp cand num 0 0 balls

/-- The property that each ball of the second list was appended without
overlapping any ball already present at the moment of its insertion
(the acceptance condition of lines 325-331). -/
def insertionOk (hyp : F → F → F) : List (Ball F) → List (Ball F) → Prop
  | _, [] => True
  | prev, c :: rest =>
    overlapsAny hyp c prev = false ∧ insertionOk hyp (prev ++ [c]) rest

/-- Squared distance between the predicted positions of the first two
entries of a store (the quantity tracked by the non-penetration property). -/
def pairSqDist (s : List (Ball F)) : F :=
  match s[0]?, s[1]? with
  | some a, some b => (b.px - a.px) * (b.px - a.px) + (b.py - a.py) * (b.py - a.py)
  | _, _ => 0

end Model

/-- `math.hypot` over the reals: the Euclidean norm of `(a, b)`. -/
noncomputable def hypotR (a b : ℝ) : ℝ := Real.sqrt (a * a + b * b)

/-- Grid state left over from a previous frame in which two balls with
predicted positions near `(785, 400)` and `(765, 400)` were bucketed into
cell `(9, 5)` (cell size 80). -/
def gridTwoBalls : GridMap := fun k => if k = (9, 5) then [0, 1] else []

/-- Grid state left over from a previous frame in which three balls with
predicted positions near `(100, 400)`, `(112, 400)`, `(143, 400)` were all
bucketed into cell `(1, 5)` (cell size 80). -/
def gridThreeBalls : GridMap := fun k => if k = (1, 5) then [0, 1, 2] else []

/-- A held, fully enlarged ball at `(400, 400)` (concrete test entity). -/
noncomputable def heldBallW : Ball ℝ := { Ball.new 400 400 with held := true, radius := 100 }

/-- The Container at `(470, 400)` as a solver entity: `held = True`
(line 187), no `contained` attribute, `radius = CONTAINER_RADIUS`. -/
noncomputable def containerW : Ball ℝ :=
  { Ball.new 470 400 with held := true, radius := 150, isContainer := true }

/-! ### Square-root evaluation helpers -/

theorem rsqrt_eq (a b : ℝ) (hb : 0 ≤ b) (h : b * b = a) : Real.sqrt a = b := by
  rw [← h]; exact Real.sqrt_mul_self hb

theorem s144 : Real.sqrt 144 = 12 := rsqrt_eq _ _ (by norm_num) (by norm_num)

theorem s400 : Real.sqrt 400 = 20 := rsqrt_eq _ _ (by norm_num) (by norm_num)

theorem s484 : Real.sqrt 484 = 22 := rsqrt_eq _ _ (by norm_num) (by norm_num)

theorem s900 : Real.sqrt 900 = 30 := rsqrt_eq _ _ (by norm_num) (by norm_num)

theorem s961 : Real.sqrt 961 = 31 := rsqrt_eq _ _ (by norm_num) (by norm_num)

theorem s2704 : Real.sqrt 2704 = 52 := rsqrt_eq _ _ (by norm_num) (by norm_num)

theorem s3136 : Real.sqrt 3136 = 56 := rsqrt_eq _ _ (by norm_num) (by norm_num)

theorem s5000_not : ((300:ℝ) < Real.sqrt 5000) = False :=
  eq_false (not_lt.mpr ((Real.sqrt_lt' (by norm_num)).mpr (by norm_num)).le)

/-! ### C8: zero-distance pairs are skipped -/

/-- C8: for every pair of entities considered by `solve_free_constraints`
whose predicted-position distance is exactly zero, the pair is skipped
(line 261-262): neither entity's predicted position is changed by the
processing of that pair.  The model of the pair step is a total function,
so the case is handled by policy, never as a failure. -/
theorem C8_zero_distance_skip (objs : List (Ball ℝ)) (i j : ℕ) (o t : Ball ℝ)
    (hi : objs[i]? = some o) (hj : objs[j]? = some t)
    (hd : hypotR (t.px - o.px) (t.py - o.py) = 0) :
    resolvePairAt hypotR objs i j = objs := by
  unfold resolvePairAt
  rw [hi, hj]
  simp [hd]

theorem C8_witness :
    resolvePairAt hypotR [Ball.new (5:ℝ) 5, Ball.new 5 5] 0 1 =
      [Ball.new (5:ℝ) 5, Ball.new 5 5] :=
  C8_zero_distance_skip _ 0 1 _ _ rfl rfl
    (by norm_num [Ball.new, hypotR, Real.sqrt_zero])

/-! ### C6: the throw law -/

/-- C6: on release of a held ball (button-1 up, lines 511-517) or of each
contained ball (button-3 up, lines 501-510), the released ball's velocity is
set to exactly the current estimated pointer velocity multiplied by
`THROW_MULTIPLIER`, component-wise. -/
theorem C6_throw_law {F : Type} [LinearOrderedField F] (mv : F × F)
    (b c : Ball F) (balls : List (Ball F)) (k : ℕ)
    (hc : c.contained = true) (hk : balls[k]? = some c) :
    (releaseHeldBall mv b).vx = mv.1 * THROW_MULTIPLIER ∧
    (releaseHeldBall mv b).vy = mv.2 * THROW_MULTIPLIER ∧
    (releaseContainedBalls mv balls)[k]? = some (releaseContainedBall mv c) ∧
    (releaseContainedBall mv c).vx = mv.1 * THROW_MULTIPLIER ∧
    (releaseContainedBall mv c).vy = mv.2 * THROW_MULTIPLIER := by
  refine ⟨rfl, rfl, ?_, ?_, ?_⟩
  · simp [releaseContainedBalls, List.getElem?_map, hk]
  · simp only [releaseContainedBall, hc]
    split_ifs <;> rfl
  · simp only [releaseContainedBall, hc]
    split_ifs <;> rfl

theorem C6_witness :
    (releaseHeldBall ((2:ℚ), 3) (Ball.new 0 0)).vx = 2 * THROW_MULTIPLIER ∧
    (releaseHeldBall ((2:ℚ), 3) (Ball.new 0 0)).vy = 3 * THROW_MULTIPLIER ∧
    (releaseContainedBalls ((2:ℚ), 3)
        [{ Ball.new (1:ℚ) 1 with contained := true }])[0]? =
      some (releaseContainedBall ((2:ℚ), 3) { Ball.new (1:ℚ) 1 with contained := true }) ∧
    (releaseContainedBall ((2:ℚ), 3) { Ball.new (1:ℚ) 1 with contained := true }).vx =
      2 * THROW_MULTIPLIER ∧
    (releaseContainedBall ((2:ℚ), 3) { Ball.new (1:ℚ) 1 with contained := true }).vy =
      3 * THROW_MULTIPLIER :=
  C6_throw_law ((2:ℚ), 3) (Ball.new 0 0) _ _ 0 rfl rfl

/-! ### C4: velocity of controlled particles -/

/-- C4 (amended): a controlled ball (held or contained) that goes through
`update_from_prediction` — in the main loop this is the held, non-contained
selected ball — ends the frame with velocity exactly `(0, 0)`.  A Contained
ball, by contrast, never has its velocity written while controlled: both
container capture and the per-frame jitter update leave `vx`, `vy` exactly
unchanged, so a contained ball silently keeps its pre-capture velocity. -/
theorem C4_controlled_velocity {F : Type} [LinearOrderedField F] [FloorRing F]
    (hyp : F → F → F) (H dt cx cy ox oy cr jx jy : F) (g : GridMap)
    (objs : List (Ball F)) (i : ℕ) (hb b : Ball F)
    (hcon : ¬ (hb.held = false ∧ hb.contained = false)) :
    (hb.update_from_prediction hyp H dt g objs i).vx = 0 ∧
    (hb.update_from_prediction hyp H dt g objs i).vy = 0 ∧
    (captureBall cx cy ox oy b).vx = b.vx ∧
    (captureBall cx cy ox oy b).vy = b.vy ∧
    (containedJitterUpdate hyp cx cy cr jx jy dt b).vx = b.vx ∧
    (containedJitterUpdate hyp cx cy cr jx jy dt b).vy = b.vy := by
  have hupd : hb.update_from_prediction hyp H dt g objs i =
      { hb with vx := 0, vy := 0, x := hb.px, y := hb.py } := by
    unfold Ball.update_from_prediction
    rw [if_neg hcon]
  have hjit : (containedJitterUpdate hyp cx cy cr jx jy dt b).vx = b.vx ∧
      (containedJitterUpdate hyp cx cy cr jx jy dt b).vy = b.vy := by
    unfold containedJitterUpdate
    dsimp only
    exact ⟨rfl, rfl⟩
  exact ⟨by rw [hupd], by rw [hupd], rfl, rfl, hjit.1, hjit.2⟩

theorem C4_witness :
    ({ Ball.new (0:ℚ) 0 with held := true }.update_from_prediction
        (fun _ _ => 0) 800 1 emptyGrid [] 0).vx = 0 ∧
    ({ Ball.new (0:ℚ) 0 with held := true }.update_from_prediction
        (fun _ _ => 0) 800 1 emptyGrid [] 0).vy = 0 ∧
    (captureBall (400:ℚ) 400 1 2 (Ball.new 3 3)).vx = (Ball.new (3:ℚ) 3).vx ∧
    (captureBall (400:ℚ) 400 1 2 (Ball.new 3 3)).vy = (Ball.new (3:ℚ) 3).vy ∧
    (containedJitterUpdate (fun _ _ => 0) (400:ℚ) 400 150 1 2 (1/100)
        (Ball.new 3 3)).vx = (Ball.new (3:ℚ) 3).vx ∧
    (containedJitterUpdate (fun _ _ => 0) (400:ℚ) 400 150 1 2 (1/100)
        (Ball.new 3 3)).vy = (Ball.new (3:ℚ) 3).vy :=
  C4_controlled_velocity (fun _ _ => 0) 800 1 400 400 1 2 150 1 2 emptyGrid [] 0
    { Ball.new (0:ℚ) 0 with held := true } (Ball.new 3 3) (by simp)

/-- C4 counterexample: a ball moving with velocity `(5, 0)` is captured by a
container and then goes through every per-frame operation that a contained
ball undergoes (jitter update, size easing, the guarded gravity and
integration steps).  At the end of the frame it is still contained and its
velocity is still `(5, 0)` — not `(0, 0)` as the claim requires. -/
theorem C4_counterexample :
    ((fun b => (b.contained, b.vx))
      ((((containedJitterUpdate hypotR 400 400 150 0 0 (1/100)
            (captureBall 400 400 0 0
              { Ball.new (400:ℝ) 400 with vx := 5 })).update_size
            (1/100)).apply_gravity (1/100)).integrate (1/100))) = (true, 5) ∧
    (5:ℝ) ≠ 0 := by
  constructor
  · norm_num [captureBall, containedJitterUpdate, Ball.update_size,
      Ball.apply_gravity, Ball.integrate, Ball.new, hypotR,
      OFFSET_SPRING_THRESHOLD, OFFSET_SPRING_FACTOR, BALL_RADIUS,
      Real.sqrt_zero]
  · norm_num

/-! ### C1: the boundary invariant -/

/-- C1 (amended): immediately after the boundary-enforcement step at the
start of `solve_free_constraints` (`Ball.enforce_boundaries`, lines 126-134),
every ball's predicted position satisfies
`radius ≤ px ≤ WIDTH − radius` and `radius ≤ py ≤ HEIGHT − radius`,
provided the circle fits the viewport (`2·radius ≤ WIDTH, HEIGHT`).  The
subsequent pairwise corrections and the special-object pass move positions
without re-clamping, so the committed position at the end of a full tick
can violate these bounds (see the counterexample). -/
theorem C1_boundary_after_enforcement {F : Type} [LinearOrderedField F]
    (W H : F) (b : Ball F) (hW : 2 * b.radius ≤ W) (hH : 2 * b.radius ≤ H) :
    b.radius ≤ (b.enforce_boundaries W H).px ∧
    (b.enforce_boundaries W H).px ≤ W - b.radius ∧
    b.radius ≤ (b.enforce_boundaries W H).py ∧
    (b.enforce_boundaries W H).py ≤ H - b.radius := by
  unfold Ball.enforce_boundaries
  dsimp only
  split_ifs <;> refine ⟨?_, ?_, ?_, ?_⟩ <;> dsimp only <;> linarith

theorem C1_witness :
    2 * (Ball.new (790:ℝ) 5).radius ≤ 800 ∧ 2 * (Ball.new (790:ℝ) 5).radius ≤ 800 ∧
    (Ball.new (790:ℝ) 5).radius ≤ ((Ball.new (790:ℝ) 5).enforce_boundaries 800 800).px ∧
    ((Ball.new (790:ℝ) 5).enforce_boundaries 800 800).px ≤ 800 - (Ball.new (790:ℝ) 5).radius ∧
    (Ball.new (790:ℝ) 5).radius ≤ ((Ball.new (790:ℝ) 5).enforce_boundaries 800 800).py ∧
    ((Ball.new (790:ℝ) 5).enforce_boundaries 800 800).py ≤ 800 - (Ball.new (790:ℝ) 5).radius := by
  refine ⟨by norm_num [Ball.new, BALL_RADIUS], by norm_num [Ball.new, BALL_RADIUS], ?_⟩
  have h := C1_boundary_after_enforcement (800:ℝ) 800 (Ball.new 790 5)
    (by norm_num [Ball.new, BALL_RADIUS]) (by norm_num [Ball.new, BALL_RADIUS])
  exact ⟨h.1, h.2.1, h.2.2.1, h.2.2.2⟩

/-- C1 counterexample: two free balls overlapping next to the right wall.
Ball 0 starts committed at `x = 785 = WIDTH − radius` (the claimed maximal
value); during the tick the pairwise overlap correction pushes its predicted
`x` to `790` after boundary clamping already ran, and `790` is committed,
so at the end of the full tick `x = 790 > WIDTH − radius = 785`. -/
theorem C1_counterexample :
    ((tick hypotR 800 800 (1/10) (0, 0) none gridTwoBalls
        [Ball.new (785:ℝ) 400, Ball.new 765 400]).map fun b => (b.x, b.radius)) =
      [(790, 15), (760, 15)] ∧ ¬ ((790:ℝ) ≤ 800 - 15) := by
  constructor
  · unfold tick solve_free_constraints solvePairsPhase solveStep solveNeighbors resolvePairAt
      updatePhase rebuildGrid floorSnapPhase Ball.update_from_prediction
      count_touching_neighbors
    norm_num [Ball.new, hypotR, BALL_RADIUS, enforceEntity, Ball.enforce_boundaries,
      Ball.update_size, Ball.apply_gravity, Ball.integrate,
      gridTwoBalls, get_neighbors, cellOf, gridPos, gridAdd, emptyGrid,
      DEFAULT_CELL_SIZE, GRAVITY, VISCOSITY, NEIGHBOR_DAMPING_BASE,
      NEIGHBOR_DAMPING_MAX, VELOCITY_CAP, THROWN_VELOCITY_CAP,
      FLOOR_SNAP_TOLERANCE, FLOOR_SNAP_VY_THRESHOLD, List.range_succ,
      s400, s900, s5000_not]
  · norm_num

/-! ### C2: monotonicity of the overlap-resolution phase -/

/-- C2 counterexample: three free balls in a row at `x = 100, 112, 143`
(radius 15 each).  Balls 1 and 2 start at distance 31 (not overlapping).
Resolving the overlap of pair (0,1) pushes ball 1 towards ball 2, and the
subsequent resolution of pair (1,2) leaves them at distance 30 < 31: the
overlap-resolution phase decreased the distance of a pair of free balls. -/
theorem C2_counterexample :
    ((solve_free_constraints hypotR 800 800 gridThreeBalls
        [Ball.new (100:ℝ) 400, Ball.new 112 400, Ball.new 143 400]).map
      fun b => (b.px, b.py)) = [(91, 400), (117, 400), (147, 400)] ∧
    hypotR (147 - 117) (400 - 400) < hypotR (143 - 112) (400 - 400) := by
  constructor
  · unfold solve_free_constraints solvePairsPhase solveStep solveNeighbors resolvePairAt
    norm_num [Ball.new, hypotR, BALL_RADIUS, enforceEntity, Ball.enforce_boundaries,
      gridThreeBalls, get_neighbors, cellOf, gridPos, DEFAULT_CELL_SIZE,
      List.range_succ, s144, s2704, s900, s484, s3136]
  · norm_num [hypotR, s900, s961]

/-! ### Structural helpers for the pair-resolution step -/

theorem getElem?_lt_length {α : Type} {l : List α} {n : ℕ} {a : α}
    (h : l[n]? = some a) : n < l.length := by
  by_contra hn
  rw [List.getElem?_eq_none (by omega)] at h
  exact Option.noConfusion h

theorem mul_self_hypotR (a b : ℝ) : hypotR a b * hypotR a b = a * a + b * b :=
  Real.mul_self_sqrt (add_nonneg (mul_self_nonneg a) (mul_self_nonneg b))

theorem hypotR_nonneg (a b : ℝ) : 0 ≤ hypotR a b := Real.sqrt_nonneg _

theorem resolvePairAt_length {F : Type} [LinearOrderedField F]
    (hyp : F → F → F) (s : List (Ball F)) (i j : ℕ) :
    (resolvePairAt hyp s i j).length = s.length := by
  unfold resolvePairAt
  rcases hi : s[i]? with _ | o <;> rcases hj : s[j]? with _ | t <;>
    simp only [hi, hj]
  split_ifs <;> simp

/-! ### C5: the pair-resolution rule by mobility class -/

/-- C5: for an overlapping pair with nonzero separation distance `D` and
overlap `OV = min_dist − D`, the pair step of `solve_free_constraints`
(lines 263-279) behaves exactly as claimed: if only the first side is
immobile (held or contained; the Container carries `held = True`) the second
side is displaced by the full overlap along the unit separation vector and
the first is unchanged; if only the second side is immobile the first side
absorbs the full overlap; if both sides are mobile each absorbs half in
opposite directions.  The final conjunct checks that the displacement really
has Euclidean norm `OV` (it is the full overlap along a unit vector). -/
theorem C5_pair_resolution_rule (objs : List (Ball ℝ)) (i j : ℕ) (o t : Ball ℝ)
    (dx dy D OV : ℝ)
    (hi : objs[i]? = some o) (hj : objs[j]? = some t) (hij : i ≠ j)
    (hdx : dx = t.px - o.px) (hdy : dy = t.py - o.py)
    (hD : D = hypotR dx dy) (hOV : OV = o.radius + t.radius - D)
    (hd0 : D ≠ 0) (hlt : D < o.radius + t.radius) :
    ((o.held || o.contained) = true → (t.held || t.contained) = false →
      (resolvePairAt hypotR objs i j)[i]? = some o ∧
      (resolvePairAt hypotR objs i j)[j]? =
        some { t with px := t.px + dx / D * OV, py := t.py + dy / D * OV }) ∧
    ((o.held || o.contained) = false → (t.held || t.contained) = true →
      (resolvePairAt hypotR objs i j)[j]? = some t ∧
      (resolvePairAt hypotR objs i j)[i]? =
        some { o with px := o.px - dx / D * OV, py := o.py - dy / D * OV }) ∧
    ((o.held || o.contained) = false → (t.held || t.contained) = false →
      (resolvePairAt hypotR objs i j)[i]? =
        some { o with px := o.px - dx / D * (OV / 2), py := o.py - dy / D * (OV / 2) } ∧
      (resolvePairAt hypotR objs i j)[j]? =
        some { t with px := t.px + dx / D * (OV / 2), py := t.py + dy / D * (OV / 2) }) ∧
    (dx / D * OV) * (dx / D * OV) + (dy / D * OV) * (dy / D * OV) = OV * OV := by
  have hilen := getElem?_lt_length hi
  have hjlen := getElem?_lt_length hj
  have hDD : D * D = dx * dx + dy * dy := by rw [hD]; exact mul_self_hypotR dx dy
  have hnorm : (dx / D * OV) * (dx / D * OV) + (dy / D * OV) * (dy / D * OV) =
      OV * OV := by
    have key : (dx * OV) * (dx * OV) + (dy * OV) * (dy * OV) =
        (OV * OV) * (D * D) := by
      linear_combination (-(OV * OV)) * hDD
    calc (dx / D * OV) * (dx / D * OV) + (dy / D * OV) * (dy / D * OV)
        = ((dx * OV) * (dx * OV) + (dy * OV) * (dy * OV)) / (D * D) := by ring
      _ = (OV * OV) * (D * D) / (D * D) := by rw [key]
      _ = OV * OV := by field_simp
  have hred : resolvePairAt hypotR objs i j =
      (if (o.held || o.contained) = true then
        objs.set j { t with px := t.px + dx / D * OV, py := t.py + dy / D * OV }
      else if (t.held || t.contained) = true then
        objs.set i { o with px := o.px - dx / D * OV, py := o.py - dy / D * OV }
      else
        (objs.set i { o with px := o.px - dx / D * (OV / 2),
                             py := o.py - dy / D * (OV / 2) }).set j
          { t with px := t.px + dx / D * (OV / 2), py := t.py + dy / D * (OV / 2) }) := by
    unfold resolvePairAt
    rw [hi, hj]
    simp only []
    rw [← hdx, ← hdy, ← hD, if_neg hd0, if_pos hlt, ← hOV]
  refine ⟨?_, ?_, ?_, hnorm⟩ <;> intro h1 h2
  · rw [hred, if_pos h1]
    constructor
    · rw [List.getElem?_set_ne (Ne.symm hij)]
      exact hi
    · rw [List.getElem?_set_eq_of_lt _ hjlen]
  · rw [hred, if_neg (by simp [h1]), if_pos h2]
    constructor
    · rw [List.getElem?_set_ne hij]
      exact hj
    · rw [List.getElem?_set_eq_of_lt _ hilen]
  · rw [hred, if_neg (by simp [h1]), if_neg (by simp [h2])]
    constructor
    · rw [List.getElem?_set_ne (Ne.symm hij), List.getElem?_set_eq_of_lt _ hilen]
    · rw [List.getElem?_set_eq_of_lt]
      rw [List.length_set]
      exact hjlen

theorem C5_witness :
    (((Ball.new (0:ℝ) 0).held || (Ball.new (0:ℝ) 0).contained) = true →
      ((Ball.new (20:ℝ) 0).held || (Ball.new (20:ℝ) 0).contained) = false →
      (resolvePairAt hypotR [Ball.new (0:ℝ) 0, Ball.new 20 0] 0 1)[0]? =
        some (Ball.new (0:ℝ) 0) ∧
      (resolvePairAt hypotR [Ball.new (0:ℝ) 0, Ball.new 20 0] 0 1)[1]? =
        some { Ball.new (20:ℝ) 0 with
               px := (Ball.new (20:ℝ) 0).px + 20 / 20 * 10,
               py := (Ball.new (20:ℝ) 0).py + 0 / 20 * 10 }) ∧
    (((Ball.new (0:ℝ) 0).held || (Ball.new (0:ℝ) 0).contained) = false →
      ((Ball.new (20:ℝ) 0).held || (Ball.new (20:ℝ) 0).contained) = true →
      (resolvePairAt hypotR [Ball.new (0:ℝ) 0, Ball.new 20 0] 0 1)[1]? =
        some (Ball.new (20:ℝ) 0) ∧
      (resolvePairAt hypotR [Ball.new (0:ℝ) 0, Ball.new 20 0] 0 1)[0]? =
        some { Ball.new (0:ℝ) 0 with
               px := (Ball.new (0:ℝ) 0).px - 20 / 20 * 10,
               py := (Ball.new (0:ℝ) 0).py - 0 / 20 * 10 }) ∧
    (((Ball.new (0:ℝ) 0).held || (Ball.new (0:ℝ) 0).contained) = false →
      ((Ball.new (20:ℝ) 0).held || (Ball.new (20:ℝ) 0).contained) = false →
      (resolvePairAt hypotR [Ball.new (0:ℝ) 0, Ball.new 20 0] 0 1)[0]? =
        some { Ball.new (0:ℝ) 0 with
               px := (Ball.new (0:ℝ) 0).px - 20 / 20 * (10 / 2),
               py := (Ball.new (0:ℝ) 0).py - 0 / 20 * (10 / 2) } ∧
      (resolvePairAt hypotR [Ball.new (0:ℝ) 0, Ball.new 20 0] 0 1)[1]? =
        some { Ball.new (20:ℝ) 0 with
               px := (Ball.new (20:ℝ) 0).px + 20 / 20 * (10 / 2),
               py := (Ball.new (20:ℝ) 0).py + 0 / 20 * (10 / 2) }) ∧
    ((20:ℝ) / 20 * 10) * (20 / 20 * 10) + (0 / 20 * 10) * (0 / 20 * 10) = 10 * 10 :=
  C5_pair_resolution_rule [Ball.new (0:ℝ) 0, Ball.new 20 0] 0 1
    (Ball.new 0 0) (Ball.new 20 0) 20 0 20 10 rfl rfl (by norm_num)
    (by norm_num [Ball.new]) (by norm_num [Ball.new])
    (by norm_num [hypotR, s400]) (by norm_num [Ball.new, BALL_RADIUS])
    (by norm_num) (by norm_num [Ball.new, BALL_RADIUS])

/-! ### C10: both sides immobile -/

/-- C10: in the pair step of `solve_free_constraints`, when BOTH entities of
an overlapping pair with nonzero distance are immobile (e.g. a held ball
overlapping the Container, which carries `held = True`), the first branch of
lines 268-270 still fires: the second entity is displaced by the full
overlap, and since the overlap is positive the displacement is nonzero — an
immobile entity is moved by the solver.  Immobility of the second side is
only honoured when the first side is mobile. -/
theorem C10_both_immobile_second_moves (objs : List (Ball ℝ)) (i j : ℕ)
    (o t : Ball ℝ) (dx dy D OV : ℝ)
    (hi : objs[i]? = some o) (hj : objs[j]? = some t) (hij : i ≠ j)
    (hdx : dx = t.px - o.px) (hdy : dy = t.py - o.py)
    (hD : D = hypotR dx dy) (hOV : OV = o.radius + t.radius - D)
    (hd0 : D ≠ 0) (hlt : D < o.radius + t.radius)
    (ho : (o.held || o.contained) = true)
    (ht : (t.held || t.contained) = true) :
    (resolvePairAt hypotR objs i j)[i]? = some o ∧
    (resolvePairAt hypotR objs i j)[j]? =
      some { t with px := t.px + dx / D * OV, py := t.py + dy / D * OV } ∧
    ¬ (t.px + dx / D * OV = t.px ∧ t.py + dy / D * OV = t.py) := by
  have hjlen := getElem?_lt_length hj
  have hDD : D * D = dx * dx + dy * dy := by rw [hD]; exact mul_self_hypotR dx dy
  have hDpos : 0 < D := lt_of_le_of_ne (hD ▸ hypotR_nonneg dx dy) (Ne.symm hd0)
  have hOVpos : 0 < OV := by rw [hOV]; linarith
  have hred : resolvePairAt hypotR objs i j =
      objs.set j { t with px := t.px + dx / D * OV, py := t.py + dy / D * OV } := by
    unfold resolvePairAt
    rw [hi, hj]
    simp only []
    rw [← hdx, ← hdy, ← hD, if_neg hd0, if_pos hlt, ← hOV, if_pos ho]
  refine ⟨?_, ?_, ?_⟩
  · rw [hred, List.getElem?_set_ne (Ne.symm hij)]
    exact hi
  · rw [hred, List.getElem?_set_eq_of_lt _ hjlen]
  · rintro ⟨hx, hy⟩
    have hx0 : dx = 0 := by
      have : dx / D * OV = 0 := by linarith
      rcases mul_eq_zero.mp this with h | h
      · rcases div_eq_zero_iff.mp h with h' | h'
        · exact h'
        · exact absurd h' hd0
      · exact absurd h (ne_of_gt hOVpos)
    have hy0 : dy = 0 := by
      have : dy / D * OV = 0 := by linarith
      rcases mul_eq_zero.mp this with h | h
      · rcases div_eq_zero_iff.mp h with h' | h'
        · exact h'
        · exact absurd h' hd0
      · exact absurd h (ne_of_gt hOVpos)
    rw [hx0, hy0] at hDD
    nlinarith

theorem C10_witness :
    (resolvePairAt hypotR [heldBallW, containerW] 0 1)[0]? = some heldBallW ∧
    (resolvePairAt hypotR [heldBallW, containerW] 0 1)[1]? =
      some { containerW with px := containerW.px + 70 / 70 * 180,
                             py := containerW.py + 0 / 70 * 180 } ∧
    ¬ (containerW.px + 70 / 70 * 180 = containerW.px ∧
       containerW.py + 0 / 70 * 180 = containerW.py) :=
  C10_both_immobile_second_moves _ 0 1 heldBallW containerW 70 0 70 180
    rfl rfl (by norm_num)
    (by norm_num [heldBallW, containerW, Ball.new])
    (by norm_num [heldBallW, containerW, Ball.new])
    (by rw [show ((70:ℝ)) = Real.sqrt 4900 from (rsqrt_eq 4900 70 (by norm_num)
          (by norm_num)).symm]; norm_num [hypotR])
    (by norm_num [heldBallW, containerW, Ball.new])
    (by norm_num)
    (by norm_num [heldBallW, containerW, Ball.new])
    rfl rfl

theorem pairSqDist_pair (a b : Ball ℝ) :
    pairSqDist [a, b] =
      (b.px - a.px) * (b.px - a.px) + (b.py - a.py) * (b.py - a.py) := rfl

theorem new_sq_eq (dx dy D M : ℝ) (hD : D = hypotR dx dy) (hd0 : D ≠ 0) :
    (dx + dx / D * (M - D)) * (dx + dx / D * (M - D)) +
      (dy + dy / D * (M - D)) * (dy + dy / D * (M - D)) = M * M := by
  have hDD : D * D = dx * dx + dy * dy := by rw [hD]; exact mul_self_hypotR dx dy
  have h1 : dx + dx / D * (M - D) = dx * M / D := by field_simp; ring
  have h2 : dy + dy / D * (M - D) = dy * M / D := by field_simp; ring
  rw [h1, h2]
  calc dx * M / D * (dx * M / D) + dy * M / D * (dy * M / D)
      = ((dx * dx + dy * dy) * (M * M)) / (D * D) := by ring
    _ = D * D * (M * M) / (D * D) := by rw [hDD]
    _ = M * M := by field_simp

theorem resolvePairAt_sqDist_mono (a b : Ball ℝ) (i j : ℕ) :
    pairSqDist [a, b] ≤ pairSqDist (resolvePairAt hypotR [a, b] i j) := by
  have h0 : (([a, b] : List (Ball ℝ)))[0]? = some a := rfl
  have h1 : (([a, b] : List (Ball ℝ)))[1]? = some b := rfl
  have hnone : ∀ k : ℕ, 2 ≤ k → (([a, b] : List (Ball ℝ))[k]? = none) := by
    intro k hk
    exact List.getElem?_eq_none (by simpa using hk)
  have hdeg : ∀ c : Ball ℝ, hypotR (c.px - c.px) (c.py - c.py) = 0 := by
    intro c
    simp [hypotR, sub_self, Real.sqrt_zero]
  have hcases : ∀ k : ℕ, k = 0 ∨ k = 1 ∨ 2 ≤ k := by omega
  rcases hcases i with hi | hi | hi <;> rcases hcases j with hj | hj | hj <;>
      subst_vars <;> unfold resolvePairAt
  -- (0,0)
  · simp only [h0]
    rw [if_pos (hdeg a)]
  -- (0,1): main case, orientation o = a, t = b
  · simp only [h0, h1]
    by_cases hd0 : hypotR (b.px - a.px) (b.py - a.py) = 0
    · rw [if_pos hd0]
    · rw [if_neg hd0]
      by_cases hlt : hypotR (b.px - a.px) (b.py - a.py) < a.radius + b.radius
      · rw [if_pos hlt]
        have hold : pairSqDist [a, b] ≤ (a.radius + b.radius) * (a.radius + b.radius) := by
          rw [pairSqDist_pair, ← mul_self_hypotR]
          exact mul_self_le_mul_self (hypotR_nonneg _ _) hlt.le
        have hnew := new_sq_eq (b.px - a.px) (b.py - a.py)
          (hypotR (b.px - a.px) (b.py - a.py)) (a.radius + b.radius) rfl hd0
        split_ifs with hb1 hb2
        · simp only [List.set_cons_zero, List.set_cons_succ]
          refine le_trans hold (le_of_eq ?_)
          rw [pairSqDist_pair]
          dsimp only
          linear_combination -hnew
        · simp only [List.set_cons_zero, List.set_cons_succ]
          refine le_trans hold (le_of_eq ?_)
          rw [pairSqDist_pair]
          dsimp only
          linear_combination -hnew
        · simp only [List.set_cons_zero, List.set_cons_succ]
          refine le_trans hold (le_of_eq ?_)
          rw [pairSqDist_pair]
          dsimp only
          linear_combination -hnew
      · rw [if_neg hlt]
  -- (0, ≥2)
  · simp only [h0, hnone j hj]
    exact le_rfl
  -- (1,0)
  · simp only [h0, h1]
    by_cases hd0 : hypotR (a.px - b.px) (a.py - b.py) = 0
    · rw [if_pos hd0]
    · rw [if_neg hd0]
      by_cases hlt : hypotR (a.px - b.px) (a.py - b.py) < b.radius + a.radius
      · rw [if_pos hlt]
        have hold : pairSqDist [a, b] ≤ (b.radius + a.radius) * (b.radius + a.radius) := by
          rw [pairSqDist_pair]
          have hsw : (b.px - a.px) * (b.px - a.px) + (b.py - a.py) * (b.py - a.py) =
              hypotR (a.px - b.px) (a.py - b.py) * hypotR (a.px - b.px) (a.py - b.py) := by
            rw [mul_self_hypotR]; ring
          rw [hsw]
          exact mul_self_le_mul_self (hypotR_nonneg _ _) hlt.le
        have hnew := new_sq_eq (a.px - b.px) (a.py - b.py)
          (hypotR (a.px - b.px) (a.py - b.py)) (b.radius + a.radius) rfl hd0
        split_ifs with hb1 hb2
        · simp only [List.set_cons_zero, List.set_cons_succ]
          refine le_trans hold (le_of_eq ?_)
          rw [pairSqDist_pair]
          dsimp only
          linear_combination -hnew
        · simp only [List.set_cons_zero, List.set_cons_succ]
          refine le_trans hold (le_of_eq ?_)
          rw [pairSqDist_pair]
          dsimp only
          linear_combination -hnew
        · simp only [List.set_cons_zero, List.set_cons_succ]
          refine le_trans hold (le_of_eq ?_)
          rw [pairSqDist_pair]
          dsimp only
          linear_combination -hnew
      · rw [if_neg hlt]
  -- (1,1)
  · simp only [h1]
    rw [if_pos (hdeg b)]
  -- (1, ≥2)
  · simp only [h1, hnone j hj]
    exact le_rfl
  -- (≥2, 0)
  · simp only [h0, hnone i hi]
    exact le_rfl
  -- (≥2, 1)
  · simp only [h1, hnone i hi]
    exact le_rfl
  -- (≥2, ≥2)
  · simp only [hnone i hi, hnone j hj]
    exact le_rfl

theorem solveNeighbors_sqDist_mono (s : List (Ball ℝ)) (i : ℕ) (ns : List ℕ)
    (hlen : s.length = 2) :
    pairSqDist s ≤ pairSqDist (solveNeighbors hypotR s i ns) ∧
    (solveNeighbors hypotR s i ns).length = 2 := by
  induction ns generalizing s with
  | nil => exact ⟨le_rfl, hlen⟩
  | cons k ns ih =>
    unfold solveNeighbors
    rw [List.foldl_cons]
    by_cases hk : k = i
    · rw [if_pos hk]
      exact ih s hlen
    · rw [if_neg hk]
      have hstep : pairSqDist s ≤ pairSqDist (resolvePairAt hypotR s i k) := by
        rcases s with _ | ⟨a, _ | ⟨b, _ | ⟨c, r⟩⟩⟩
        · simp at hlen
        · simp at hlen
        · exact resolvePairAt_sqDist_mono a b i k
        · simp at hlen
      have hlen2 : (resolvePairAt hypotR s i k).length = 2 :=
        (resolvePairAt_length hypotR s i k).trans hlen
      have := ih (resolvePairAt hypotR s i k) hlen2
      exact ⟨le_trans hstep this.1, this.2⟩

theorem solveStep_sqDist_mono (g : GridMap) (s : List (Ball ℝ)) (i : ℕ)
    (hlen : s.length = 2) :
    pairSqDist s ≤ pairSqDist (solveStep hypotR g s i) ∧
    (solveStep hypotR g s i).length = 2 := by
  unfold solveStep
  rcases h : s[i]? with _ | o
  · exact ⟨le_rfl, hlen⟩
  · simp only [h]
    exact solveNeighbors_sqDist_mono s i _ hlen

/-- C2 (amended): for a configuration consisting of exactly two `Free`
particles, the pairwise overlap-resolution phase of `solve_free_constraints`
never decreases the distance between their predicted positions, whatever
grid state it consults: each processing of the pair either skips it or moves
the two predicted positions exactly onto the sum of the radii, which is
larger than any distance that triggered a correction.  (With three or more
particles the phase can decrease the distance of a pair — see the
counterexample.) -/
theorem C2_two_particle_monotonicity (g : GridMap) (a b : Ball ℝ)
    (ha1 : a.held = false) (ha2 : a.contained = false)
    (hb1 : b.held = false) (hb2 : b.contained = false) :
    Real.sqrt (pairSqDist [a, b]) ≤
      Real.sqrt (pairSqDist (solvePairsPhase hypotR g [a, b])) := by
  apply Real.sqrt_le_sqrt
  have heq : solvePairsPhase hypotR g [a, b] =
      solveStep hypotR g (solveStep hypotR g [a, b] 0) 1 := by
    unfold solvePairsPhase
    rfl
  rw [heq]
  have h1 := solveStep_sqDist_mono g [a, b] 0 rfl
  have h2 := solveStep_sqDist_mono g (solveStep hypotR g [a, b] 0) 1 h1.2
  exact le_trans h1.1 h2.1

theorem C2_monotonicity_witness :
    Real.sqrt (pairSqDist [Ball.new (100:ℝ) 400, Ball.new 112 400]) ≤
      Real.sqrt (pairSqDist
        (solvePairsPhase hypotR gridThreeBalls
          [Ball.new (100:ℝ) 400, Ball.new 112 400])) :=
  C2_two_particle_monotonicity gridThreeBalls (Ball.new 100 400)
    (Ball.new 112 400) rfl rfl rfl rfl


theorem add_balls_top_aux_budget {F : Type} [LinearOrderedField F] [FloorRing F]
    (hyp : F → F → F) (cand : ℕ → F × F) (num count : ℕ) (balls : List (Ball F)) :
    add_balls_top_aux hyp cand num count 1000 balls = balls := by
  rw [add_balls_top_aux]
  rw [dif_neg (by omega)]

theorem add_balls_top_aux_length {F : Type} [LinearOrderedField F] [FloorRing F]
    (hyp : F → F → F) (cand : ℕ → F × F) (num : ℕ) :
    ∀ fuel count attempts (balls : List (Ball F)), 1000 - attempts ≤ fuel →
      (add_balls_top_aux hyp cand num count attempts balls).length ≤
        balls.length + (num - count) := by
  intro fuel
  induction fuel with
  | zero =>
    intro count attempts balls hf
    rw [add_balls_top_aux, dif_neg (by omega)]
    omega
  | succ f ih =>
    intro count attempts balls hf
    rw [add_balls_top_aux]
    by_cases hc : count < num ∧ attempts < 1000
    · rw [dif_pos hc]
      dsimp only
      by_cases ho : overlapsAny hyp
          (Ball.new (cand attempts).1 (cand attempts).2) balls = true
      · rw [if_pos ho]
        have := ih count (attempts + 1) balls (by omega)
        omega
      · rw [if_neg ho]
        have := ih (count + 1) (attempts + 1)
          (balls ++ [Ball.new (cand attempts).1 (cand attempts).2]) (by omega)
        simp only [List.length_append, List.length_cons, List.length_nil] at this
        omega
    · rw [dif_neg hc]
      omega

theorem add_balls_top_aux_inserted {F : Type} [LinearOrderedField F] [FloorRing F]
    (hyp : F → F → F) (cand : ℕ → F × F) (num : ℕ) :
    ∀ fuel count attempts (balls : List (Ball F)), 1000 - attempts ≤ fuel →
      ∃ added, add_balls_top_aux hyp cand num count attempts balls = balls ++ added ∧
        insertionOk hyp balls added ∧
        ∀ c ∈ added, ∃ k, c = Ball.new (cand k).1 (cand k).2 := by
  intro fuel
  induction fuel with
  | zero =>
    intro count attempts balls hf
    rw [add_balls_top_aux, dif_neg (by omega)]
    exact ⟨[], by simp, trivial, by simp⟩
  | succ f ih =>
    intro count attempts balls hf
    rw [add_balls_top_aux]
    by_cases hc : count < num ∧ attempts < 1000
    · rw [dif_pos hc]
      dsimp only
      by_cases ho : overlapsAny hyp
          (Ball.new (cand attempts).1 (cand attempts).2) balls = true
      · rw [if_pos ho]
        exact ih count (attempts + 1) balls (by omega)
      · rw [if_neg ho]
        obtain ⟨added, heq, hok, hprov⟩ := ih (count + 1) (attempts + 1)
          (balls ++ [Ball.new (cand attempts).1 (cand attempts).2]) (by omega)
        refine ⟨Ball.new (cand attempts).1 (cand attempts).2 :: added, ?_, ?_, ?_⟩
        · rw [heq]
          simp
        · exact ⟨by simpa using ho, hok⟩
        · intro c hc2
          rcases List.mem_cons.mp hc2 with hc2 | hc2
          · exact ⟨attempts, hc2⟩
          · exact hprov c hc2
    · rw [dif_neg hc]
      exact ⟨[], by simp, trivial, by simp⟩

/-- C9: `add_balls_top(num)` increases the ball count by at most `num`; the
run decomposes as the original list plus a block of appended balls, each of
which was accepted only when it overlapped no ball present at the moment of
its insertion, each sampled by `random.uniform` inside the top region
`[BALL_RADIUS, W−BALL_RADIUS] × [BALL_RADIUS, BALL_RADIUS+100]` (the
hypothesis `hreg` is `random.uniform`'s range contract); and the sampling
loop stops as soon as its 1000-attempt budget is exhausted, even with fewer
than `num` balls placed (the final conjunct: at `attempts = 1000` the loop
adds nothing). -/
theorem C9_add_balls_top {F : Type} [LinearOrderedField F] [FloorRing F]
    (hyp : F → F → F) (W : F) (cand : ℕ → F × F) (num : ℕ)
    (balls : List (Ball F))
    (hreg : ∀ k, BALL_RADIUS ≤ (cand k).1 ∧ (cand k).1 ≤ W - BALL_RADIUS ∧
      BALL_RADIUS ≤ (cand k).2 ∧ (cand k).2 ≤ BALL_RADIUS + 100) :
    (add_balls_top hyp cand num balls).length ≤ balls.length + num ∧
    (∃ added, add_balls_top hyp cand num balls = balls ++ added ∧
      insertionOk hyp balls added ∧
      ∀ c ∈ added, BALL_RADIUS ≤ c.x ∧ c.x ≤ W - BALL_RADIUS ∧
        BALL_RADIUS ≤ c.y ∧ c.y ≤ BALL_RADIUS + 100 ∧ c.radius = BALL_RADIUS) ∧
    (∀ count (balls2 : List (Ball F)),
      add_balls_top_aux hyp cand num count 1000 balls2 = balls2) := by
  refine ⟨?_, ?_, ?_⟩
  · have h := add_balls_top_aux_length hyp cand num 1000 0 0 balls (by omega)
    unfold add_balls_top
    omega
  · obtain ⟨added, heq, hok, hprov⟩ :=
      add_balls_top_aux_inserted hyp cand num 1000 0 0 balls (by omega)
    refine ⟨added, heq, hok, ?_⟩
    intro c hcmem
    obtain ⟨k, hk⟩ := hprov c hcmem
    subst hk
    have := hreg k
    simp only [Ball.new]
    exact ⟨this.1, this.2.1, this.2.2.1, this.2.2.2, trivial⟩
  · intro count balls2
    exact add_balls_top_aux_budget hyp cand num count balls2

theorem C9_witness :
    (add_balls_top (fun _ _ => (0:ℚ)) (fun _ => ((20:ℚ), 20)) 1 []).length ≤
      ([] : List (Ball ℚ)).length + 1 ∧
    add_balls_top_aux (fun _ _ => (0:ℚ)) (fun _ => ((20:ℚ), 20)) 1 0 1000
      ([] : List (Ball ℚ)) = [] := by
  have h := C9_add_balls_top (fun _ _ => (0:ℚ)) 800 (fun _ => ((20:ℚ), 20)) 1 []
    (by intro k; norm_num [BALL_RADIUS])
  exact ⟨h.1, h.2.2 0 []⟩

theorem resolvePairAt_singleton (c : Ball ℝ) (j : ℕ) :
    resolvePairAt hypotR [c] 0 j = [c] := by
  unfold resolvePairAt
  rcases j with _ | m
  · simp only [show (([c] : List (Ball ℝ)))[0]? = some c from rfl]
    rw [if_pos (by simp [hypotR, sub_self, Real.sqrt_zero])]
  · simp only [show (([c] : List (Ball ℝ)))[0]? = some c from rfl,
               show (([c] : List (Ball ℝ)))[m + 1]? = none from rfl]

theorem solveNeighbors_singleton (c : Ball ℝ) (ns : List ℕ) :
    solveNeighbors hypotR [c] 0 ns = [c] := by
  unfold solveNeighbors
  induction ns with
  | nil => rfl
  | cons k ns ih =>
    rw [List.foldl_cons]
    by_cases hk : k = 0
    · rw [if_pos hk]
      exact ih
    · rw [if_neg hk, resolvePairAt_singleton]
      exact ih

theorem solvePairsPhase_singleton (g : GridMap) (c : Ball ℝ) :
    solvePairsPhase hypotR g [c] = [c] := by
  unfold solvePairsPhase
  show solveStep hypotR g [c] 0 = [c]
  unfold solveStep
  simp only [show (([c] : List (Ball ℝ)))[0]? = some c from rfl]
  exact solveNeighbors_singleton c _

theorem get_neighbors_single (key : ℤ × ℤ) (i : ℕ) :
    get_neighbors (gridAdd emptyGrid key i) key = [i] := by
  obtain ⟨a, b⟩ := key
  unfold get_neighbors gridAdd emptyGrid
  dsimp only
  rw [if_neg (by simp only [Prod.mk.injEq]; omega)]
  rw [if_neg (by simp only [Prod.mk.injEq]; omega)]
  rw [if_neg (by simp only [Prod.mk.injEq]; omega)]
  rw [if_neg (by simp only [Prod.mk.injEq]; omega)]
  rw [if_pos rfl]
  rw [if_neg (by simp only [Prod.mk.injEq]; omega)]
  rw [if_neg (by simp only [Prod.mk.injEq]; omega)]
  rw [if_neg (by simp only [Prod.mk.injEq]; omega)]
  rw [if_neg (by simp only [Prod.mk.injEq]; omega)]
  rfl

theorem count_touching_self (hyp : ℝ → ℝ → ℝ) (c : Ball ℝ)
    (hic : c.isContainer = false) :
    count_touching_neighbors hyp (rebuildGrid [c]) [c] 0 = 0 := by
  unfold count_touching_neighbors
  simp only [show (([c] : List (Ball ℝ)))[0]? = some c from rfl]
  have hgr : rebuildGrid [c] = gridAdd emptyGrid (cellOf (gridPos c)) 0 := by
    unfold rebuildGrid
    rfl
  have hgp : gridPos c = (c.px, c.py) := by
    unfold gridPos
    rw [if_neg (by simp [hic])]
  rw [hgr, hgp, get_neighbors_single]
  rfl

theorem updatePhase_singleton (hyp : ℝ → ℝ → ℝ) (H dt : ℝ) (g2 : GridMap)
    (c : Ball ℝ) :
    updatePhase hyp H dt g2 [c] =
      [Ball.update_from_prediction hyp H dt g2 [c] 0 c] := by
  unfold updatePhase
  rfl

theorem update_free_floor (H dt : ℝ) (c : Ball ℝ)
    (hheld : c.held = false) (hcont : c.contained = false)
    (hic : c.isContainer = false) (hrt : c.release_timer ≤ 0)
    (hrad : c.radius = BALL_RADIUS)
    (hpx : c.px = c.x) (hpy : c.py = H - BALL_RADIUS)
    (hcy : c.y = H - BALL_RADIUS) :
    Ball.update_from_prediction hypotR H dt (rebuildGrid [c]) [c] 0 c =
      { c with vx := 0, vy := 0, x := c.x, y := H - BALL_RADIUS,
               px := c.x, py := H - BALL_RADIUS } := by
  unfold Ball.update_from_prediction
  rw [if_pos ⟨hheld, hcont⟩]
  rw [count_touching_self hypotR c hic]
  dsimp only
  rw [hpx, hpy, hcy]
  simp only [sub_self, zero_div, VISCOSITY, NEIGHBOR_DAMPING_BASE, sub_zero,
    zero_mul, add_zero, mul_one, pow_zero]
  rw [show hypotR 0 0 = 0 by simp [hypotR, Real.sqrt_zero]]
  rw [if_neg (not_lt.mpr hrt)]
  rw [if_neg (show ¬ ((0:ℝ) > VELOCITY_CAP) by simp [VELOCITY_CAP])]
  rw [hrad]
  rw [if_pos (show H - BALL_RADIUS + BALL_RADIUS ≥ H - FLOOR_SNAP_TOLERANCE ∧
      |(0:ℝ)| < FLOOR_SNAP_VY_THRESHOLD by
    constructor
    · simp only [FLOOR_SNAP_TOLERANCE]; linarith
    · simp only [FLOOR_SNAP_VY_THRESHOLD]; norm_num)]

theorem floorSnapPhase_singleton (H : ℝ) (c : Ball ℝ)
    (hheld : c.held = false) (hcont : c.contained = false)
    (hrad : c.radius = BALL_RADIUS) (hcy : c.y = H - BALL_RADIUS)
    (hvy : c.vy = 0) :
    floorSnapPhase H [c] =
      [{ c with y := H - BALL_RADIUS, vy := 0, px := c.x, py := H - BALL_RADIUS }] := by
  unfold floorSnapPhase
  simp only [List.map_cons, List.map_nil]
  rw [if_pos (show c.held = false ∧ c.contained = false ∧
      c.y + c.radius ≥ H - FLOOR_SNAP_TOLERANCE ∧
      |c.vy| < FLOOR_SNAP_VY_THRESHOLD from
    ⟨hheld, hcont, by rw [hcy, hrad]; simp only [FLOOR_SNAP_TOLERANCE]; linarith,
     by rw [hvy]; simp only [FLOOR_SNAP_VY_THRESHOLD]; norm_num⟩)]
  rw [hrad]

set_option maxHeartbeats 1000000 in
/-- C7: a free ball of radius `BALL_RADIUS` resting exactly on the floor
(`y = HEIGHT − radius`) with velocity `(0, 0)` and gravity enabled is a
fixed point of the tick: for every `dt > 0` (and any grid state, pointer
position and horizontal position away from the side walls), after one full
tick its committed `y` is still `HEIGHT − radius` and its vertical velocity
is still `0` — the boundary clamp cancels the gravity step exactly and the
floor-snap rule re-pins the ball. -/
theorem C7_floor_rest_fixed_point (W H dt : ℝ) (mouse : ℝ × ℝ) (g : GridMap)
    (b : Ball ℝ) (hdt : 0 < dt) (hH : 30 ≤ H)
    (hheld : b.held = false) (hcont : b.contained = false)
    (hic : b.isContainer = false) (hrt : b.release_timer ≤ 0)
    (hrad : b.radius = BALL_RADIUS) (hy : b.y = H - BALL_RADIUS)
    (hvx : b.vx = 0) (hvy : b.vy = 0)
    (hx1 : BALL_RADIUS ≤ b.x) (hx2 : b.x ≤ W - BALL_RADIUS) :
    ((tick hypotR W H dt mouse none g [b])[0]?).map (fun e => (e.y, e.vy)) =
      some (H - BALL_RADIUS, 0) := by
  have hdd : 0 < dt * dt := mul_pos hdt hdt
  have hx1' : (15:ℝ) ≤ b.x := by simpa [BALL_RADIUS] using hx1
  have hx2' : b.x ≤ W - 15 := by simpa [BALL_RADIUS] using hx2
  have hy' : b.y = H - 15 := by simpa [BALL_RADIUS] using hy
  have h1 : Ball.update_size dt b = { b with radius := BALL_RADIUS } := by
    unfold Ball.update_size
    rw [if_neg (by simp [hheld]), if_neg (not_lt.mpr hrt)]
  have h2 : Ball.apply_gravity dt { b with radius := BALL_RADIUS } =
      { b with radius := BALL_RADIUS, vy := GRAVITY * dt } := by
    unfold Ball.apply_gravity
    rw [if_pos ⟨hheld, hcont⟩]
    rw [hvy]
    congr 1
    ring
  have h3 : Ball.integrate dt { b with radius := BALL_RADIUS, vy := GRAVITY * dt } =
      { b with radius := BALL_RADIUS, vy := GRAVITY * dt,
               px := b.x, py := H - 15 + GRAVITY * (dt * dt) } := by
    unfold Ball.integrate
    rw [if_pos ⟨hheld, hcont⟩]
    rw [hvx, hy']
    congr 1 <;> ring
  have h4 : enforceEntity W H
      { b with radius := BALL_RADIUS, vy := GRAVITY * dt,
               px := b.x, py := H - 15 + GRAVITY * (dt * dt) } =
      { b with radius := BALL_RADIUS, vy := GRAVITY * dt,
               px := b.x, py := H - BALL_RADIUS } := by
    unfold enforceEntity Ball.enforce_boundaries
    rw [if_neg (by simp [hic])]
    dsimp only
    rw [if_neg (show ¬ (b.x - BALL_RADIUS < 0) by
      push_neg; simp only [BALL_RADIUS]; linarith)]
    dsimp only
    rw [if_neg (show ¬ (b.x + BALL_RADIUS > W) by
      push_neg; simp only [BALL_RADIUS]; linarith)]
    dsimp only
    rw [if_neg (show ¬ (H - 15 + GRAVITY * (dt * dt) - BALL_RADIUS < 0) by
      push_neg; simp only [BALL_RADIUS, GRAVITY]; linarith)]
    dsimp only
    rw [if_pos (show H - 15 + GRAVITY * (dt * dt) + BALL_RADIUS > H by
      simp only [BALL_RADIUS, GRAVITY]; linarith)]
  unfold tick
  dsimp only
  simp only [List.map_cons, List.map_nil]
  rw [h1, h2, h3]
  unfold solve_free_constraints
  simp only [List.map_cons, List.map_nil]
  rw [h4, solvePairsPhase_singleton, updatePhase_singleton]
  rw [update_free_floor H dt _ (by exact hheld) (by exact hcont) (by exact hic)
      (by exact hrt) (by rfl) (by rfl) (by rfl) (by exact hy)]
  rw [floorSnapPhase_singleton H _ (by exact hheld) (by exact hcont) (by rfl)
      (by rfl) (by rfl)]
  rfl

theorem C7_witness :
    ((tick hypotR 800 800 1 (0, 0) none emptyGrid
        [Ball.new (400:ℝ) (800 - BALL_RADIUS)])[0]?).map (fun e => (e.y, e.vy)) =
      some (800 - BALL_RADIUS, 0) :=
  C7_floor_rest_fixed_point 800 800 1 (0, 0) emptyGrid
    (Ball.new 400 (800 - BALL_RADIUS)) (by norm_num) (by norm_num)
    rfl rfl rfl (by norm_num [Ball.new]) rfl rfl rfl rfl
    (by norm_num [Ball.new, BALL_RADIUS]) (by norm_num [Ball.new, BALL_RADIUS])

theorem mapIdx_singleton {α β : Type} (f : ℕ → α → β) (a : α) :
    List.mapIdx f [a] = [f 0 a] := rfl

set_option maxHeartbeats 1000000 in
/-- C3 counterexample: the pointer is at the window corner `(0, 0)` while a
ball is held.  The selected-ball override puts the ball at `(0, 0)`, but
`Ball.enforce_boundaries` clamps the predicted position of the enlarged ball
back to `(100, 100)`, which is then committed: at the end of the frame the
held ball's position is `(100, 100) ≠ (0, 0)`, not the pointer position. -/
theorem C3_counterexample :
    ((tick hypotR 800 800 (1/10) (0, 0) (some 0) emptyGrid
        [{ Ball.new (400:ℝ) 400 with held := true }]).map fun e => (e.x, e.y)) =
      [((100:ℝ), (100:ℝ))] ∧ ¬ (((100:ℝ), (100:ℝ)) = ((0:ℝ), (0:ℝ))) := by
  constructor
  · unfold tick solve_free_constraints solvePairsPhase solveStep solveNeighbors
      resolvePairAt updatePhase rebuildGrid floorSnapPhase specialCheckPhase
      Ball.update_from_prediction count_touching_neighbors
    norm_num [Ball.new, hypotR, BALL_RADIUS, ENLARGED_RADIUS, enforceEntity,
      Ball.enforce_boundaries, Ball.update_size, Ball.apply_gravity,
      Ball.integrate, emptyGrid, get_neighbors, cellOf, gridPos, gridAdd,
      DEFAULT_CELL_SIZE, List.range_succ, mapIdx_singleton]
  · norm_num

end BallsSim

namespace BallsSim

section PreserveLemmas

variable {F : Type} [LinearOrderedField F] [FloorRing F]

theorem getElem?_set_map_eq {α β : Type} (l : List α) (n k : ℕ) (a : α)
    (f : α → β) (ha : ∀ c, l[n]? = some c → f a = f c) :
    ((l.set n a)[k]?).map f = (l[k]?).map f := by
  by_cases hk : k = n
  · subst hk
    by_cases hlt : k < l.length
    · rw [List.getElem?_set_eq_of_lt _ hlt]
      rcases hc : l[k]? with _ | c
      · rw [List.getElem?_eq_none_iff] at hc
        omega
      · simp [ha c hc]
    · rw [List.set_eq_of_length_le (by omega)]
  · rw [List.getElem?_set_ne (fun h => hk h.symm)]

theorem resolvePairAt_flags (hyp : F → F → F) (s : List (Ball F)) (i j k : ℕ) :
    ((resolvePairAt hyp s i j)[k]?).map (fun e => (e.held, e.contained)) =
      (s[k]?).map (fun e => (e.held, e.contained)) := by
  unfold resolvePairAt
  rcases hi : s[i]? with _ | o <;> rcases hj : s[j]? with _ | t <;>
    simp only [hi, hj]
  split_ifs with h1 h2 h3 h4
  · rfl
  · refine getElem?_set_map_eq s j k _ _ (fun c hc => ?_)
    rw [hj] at hc
    cases hc
    rfl
  · refine getElem?_set_map_eq s i k _ _ (fun c hc => ?_)
    rw [hi] at hc
    cases hc
    rfl
  · refine (getElem?_set_map_eq _ j k _ _ (fun c hc => ?_)).trans
      (getElem?_set_map_eq s i k _ _ (fun c hc => ?_))
    · by_cases hij : i = j
      · subst hij
        rw [List.getElem?_set_eq_of_lt _ (getElem?_lt_length hi)] at hc
        cases hc
        rw [hi] at hj
        cases hj
        rfl
      · rw [List.getElem?_set_ne hij, hj] at hc
        cases hc
        rfl
    · rw [hi] at hc
      cases hc
      rfl
  · rfl

theorem resolvePairAt_preserve_entry (hyp : F → F → F) (s : List (Ball F))
    (i a c : ℕ) (bi : Ball F)
    (hib : s[i]? = some bi) (himm : (bi.held || bi.contained) = true)
    (hmob : ∀ k e, k ≠ i → s[k]? = some e → (e.held || e.contained) = false)
    (hac : a = i → c ≠ i) :
    (resolvePairAt hyp s a c)[i]? = some bi := by
  unfold resolvePairAt
  rcases ha : s[a]? with _ | o <;> rcases hc : s[c]? with _ | t <;>
    simp only [ha, hc]
  · exact hib
  · exact hib
  · exact hib
  split_ifs with h1 h2 h3 h4
  · exact hib
  · -- first branch: the second entity at index c is displaced
    by_cases hai : a = i
    · rw [List.getElem?_set_ne (hac hai)]
      exact hib
    · rw [hmob a o hai ha] at h3
      exact absurd h3 (by simp)
  · -- second branch: the first entity at index a is displaced
    have hci : c = i := by
      by_contra hci
      rw [hmob c t hci hc] at h4
      exact absurd h4 (by simp)
    have hai : a ≠ i := by
      intro hai
      subst hai
      rw [ha] at hib
      cases hib
      rw [himm] at h3
      exact h3 rfl
    rw [List.getElem?_set_ne hai]
    exact hib
  · -- both mobile: both a and c differ from i
    have hai : a ≠ i := by
      intro hai
      subst hai
      rw [ha] at hib
      cases hib
      rw [himm] at h3
      exact h3 rfl
    have hci : c ≠ i := by
      intro hci
      subst hci
      rw [hc] at hib
      cases hib
      rw [himm] at h4
      exact h4 rfl
    rw [List.getElem?_set_ne hci, List.getElem?_set_ne hai]
    exact hib
  · exact hib

theorem mob_of_flags {s s2 : List (Ball F)} {i : ℕ}
    (hf : ∀ k : ℕ, (s2[k]?).map (fun e => (e.held, e.contained)) =
      (s[k]?).map (fun e => (e.held, e.contained)))
    (hmob : ∀ k e, k ≠ i → s[k]? = some e → (e.held || e.contained) = false) :
    ∀ k e, k ≠ i → s2[k]? = some e → (e.held || e.contained) = false := by
  intro k e hk he
  have h := hf k
  rw [he] at h
  rcases hs : s[k]? with _ | c
  · rw [hs] at h
    simp at h
  · rw [hs] at h
    simp only [Option.map_some'] at h
    have h2 := Option.some.inj h
    have hc := hmob k c hk hs
    rw [Prod.mk.injEq] at h2
    rw [h2.1, h2.2]
    exact hc

theorem foldl_preserve {α : Type} (step : List α → ℕ → List α)
    (P : List α → Prop) (hstep : ∀ s k, P s → P (step s k)) :
    ∀ (L : List ℕ) (s : List α), P s → P (L.foldl step s) := by
  intro L
  induction L with
  | nil =>
    intro s hs
    exact hs
  | cons k L ih =>
    intro s hs
    rw [List.foldl_cons]
    exact ih _ (hstep s k hs)

/-- While only entry `i` of the store is immobile, the whole pairwise
overlap-resolution phase leaves entry `i` untouched (the solver only ever
moves mobile entities when the immobile side is the first of a pair, and
entry `i` is never the second of a processed pair with an immobile first
side). -/
theorem solvePairsPhase_preserve_immobile (hyp : F → F → F) (g : GridMap)
    (s : List (Ball F)) (i : ℕ) (bi : Ball F)
    (hib : s[i]? = some bi) (himm : (bi.held || bi.contained) = true)
    (hmob : ∀ k e, k ≠ i → s[k]? = some e → (e.held || e.contained) = false) :
    (solvePairsPhase hyp g s)[i]? = some bi := by
  unfold solvePairsPhase
  have main := foldl_preserve (solveStep hyp g)
    (fun s2 => s2[i]? = some bi ∧
      ∀ k e, k ≠ i → s2[k]? = some e → (e.held || e.contained) = false)
    (fun s2 a h2 => ?_) (List.range s.length) s ⟨hib, hmob⟩
  · exact main.1
  · obtain ⟨h2i, h2m⟩ := h2
    unfold solveStep
    rcases ha : s2[a]? with _ | o
    · exact ⟨h2i, h2m⟩
    simp only [ha]
    unfold solveNeighbors
    exact foldl_preserve _
      (fun s3 => s3[i]? = some bi ∧
        ∀ k e, k ≠ i → s3[k]? = some e → (e.held || e.contained) = false)
      (fun s3 j h3 => by
        by_cases hj : j = a
        · rw [if_pos hj]
          exact h3
        · rw [if_neg hj]
          refine ⟨resolvePairAt_preserve_entry hyp s3 i a j bi h3.1 himm h3.2
            (fun hai => ?_), mob_of_flags (resolvePairAt_flags hyp s3 a j) h3.2⟩
          rw [← hai]
          exact hj) _ _ ⟨h2i, h2m⟩

end PreserveLemmas

end BallsSim

namespace BallsSim

section CommitLemmas

variable {F : Type} [LinearOrderedField F] [FloorRing F]

theorem foldl_getElem_invar {α : Type} (step : List α → ℕ → List α) (i : ℕ)
    (hstep : ∀ (s : List α) (k : ℕ), k ≠ i → (step s k)[i]? = s[i]?) :
    ∀ (L : List ℕ), (∀ k ∈ L, k ≠ i) → ∀ s : List α,
      (L.foldl step s)[i]? = s[i]? := by
  intro L
  induction L with
  | nil =>
    intro _ s
    rfl
  | cons a L ih =>
    intro hL s
    rw [List.foldl_cons, ih (fun k hk => hL k (List.mem_cons_of_mem a hk)) _,
      hstep s a (hL a (List.mem_cons_self a L))]

theorem foldl_range_commit {α : Type} (step : List α → ℕ → List α) (i : ℕ)
    (v0 v : α)
    (hstep : ∀ (s : List α) (k : ℕ), k ≠ i → (step s k)[i]? = s[i]?)
    (hcommit : ∀ s : List α, s[i]? = some v0 → (step s i)[i]? = some v) :
    ∀ n : ℕ, i < n → ∀ s : List α, s[i]? = some v0 →
      ((List.range n).foldl step s)[i]? = some v := by
  intro n
  induction n with
  | zero =>
    intro h
    omega
  | succ n ih =>
    intro hin s hs
    rw [List.range_succ, List.foldl_append, List.foldl_cons, List.foldl_nil]
    by_cases hni : i < n
    · rw [hstep _ n (by omega), ih hni s hs]
    · have hni2 : n = i := by omega
      subst hni2
      exact hcommit _ (by
        rw [foldl_getElem_invar step n hstep (List.range n)
          (fun k hk => by rw [List.mem_range] at hk; omega) s]
        exact hs)

/-- During the `update_from_prediction` sweep, a held entry is rewritten once
(at its own index, from its pre-sweep value) to the held/contained branch of
`update_from_prediction`: velocity zeroed, predicted position committed. -/
theorem updatePhase_commit (hyp : F → F → F) (H dt : F) (g : GridMap)
    (s : List (Ball F)) (i : ℕ) (c : Ball F)
    (hi : s[i]? = some c) (hheld : c.held = true) :
    (updatePhase hyp H dt g s)[i]? =
      some { c with vx := 0, vy := 0, x := c.px, y := c.py } := by
  unfold updatePhase
  refine foldl_range_commit _ i c _ (fun s2 k hk => ?_) (fun s2 hs2 => ?_)
    s.length (getElem?_lt_length hi) s hi
  · rcases h2 : s2[k]? with _ | o
    · simp only [h2]
    · simp only [h2]
      exact List.getElem?_set_ne hk
  · simp only [hs2]
    rw [List.getElem?_set_eq_of_lt _ (getElem?_lt_length hs2)]
    have hupd : Ball.update_from_prediction hyp H dt g s2 i c =
        { c with vx := 0, vy := 0, x := c.px, y := c.py } := by
      unfold Ball.update_from_prediction
      rw [if_neg (by rw [hheld]; simp)]
    rw [hupd]

theorem update_size_held (dt : F) (c : Ball F) :
    (Ball.update_size dt c).held = c.held := by
  unfold Ball.update_size
  split_ifs <;> rfl

theorem update_size_contained (dt : F) (c : Ball F) :
    (Ball.update_size dt c).contained = c.contained := by
  unfold Ball.update_size
  split_ifs <;> rfl

theorem apply_gravity_held (dt : F) (c : Ball F) :
    (Ball.apply_gravity dt c).held = c.held := by
  unfold Ball.apply_gravity
  split_ifs <;> rfl

theorem apply_gravity_contained (dt : F) (c : Ball F) :
    (Ball.apply_gravity dt c).contained = c.contained := by
  unfold Ball.apply_gravity
  split_ifs <;> rfl

theorem integrate_held (dt : F) (c : Ball F) :
    (Ball.integrate dt c).held = c.held := by
  unfold Ball.integrate
  split_ifs <;> rfl

theorem integrate_contained (dt : F) (c : Ball F) :
    (Ball.integrate dt c).contained = c.contained := by
  unfold Ball.integrate
  split_ifs <;> rfl

theorem enforceEntity_held (W H : F) (c : Ball F) :
    (enforceEntity W H c).held = c.held := by
  unfold enforceEntity Ball.container_enforce_boundaries Ball.enforce_boundaries
  dsimp only
  split_ifs <;> rfl

theorem enforceEntity_contained (W H : F) (c : Ball F) :
    (enforceEntity W H c).contained = c.contained := by
  simp only [enforceEntity, Ball.container_enforce_boundaries,
    Ball.enforce_boundaries]
  split_ifs <;> rfl

/-- A clamp that has nothing to clamp is the identity. -/
theorem enforce_inrange (W H : F) (c : Ball F)
    (h1 : ¬ c.px - c.radius < 0) (h2 : ¬ c.px + c.radius > W)
    (h3 : ¬ c.py - c.radius < 0) (h4 : ¬ c.py + c.radius > H) :
    Ball.enforce_boundaries W H c = c := by
  unfold Ball.enforce_boundaries
  dsimp only
  rw [if_neg h1, if_neg h2, if_neg h3, if_neg h4]

end CommitLemmas

end BallsSim

namespace BallsSim

set_option maxHeartbeats 1000000 in
/-- C3 (amended): while a ball is held and selected, at the end of the frame
its committed position equals the pointer position and its velocity is
`(0, 0)` — provided the pointer stays at least `ENLARGED_RADIUS` away from
every window edge (so that `enforce_boundaries` does not clamp the enlarged
ball), its pickup transition has finished, and every other entity in the
store is a plain free ball (so no pairwise correction can displace the held
ball). -/
theorem C3_held_tracking (W H dt : ℝ) (mouse : ℝ × ℝ) (g : GridMap)
    (objs : List (Ball ℝ)) (i : ℕ) (b : Ball ℝ)
    (hi : objs[i]? = some b) (hheld : b.held = true)
    (hcont : b.contained = false) (hic : b.isContainer = false)
    (hpt : b.pickup_timer ≤ 0)
    (hmx1 : ENLARGED_RADIUS ≤ mouse.1) (hmx2 : mouse.1 ≤ W - ENLARGED_RADIUS)
    (hmy1 : ENLARGED_RADIUS ≤ mouse.2) (hmy2 : mouse.2 ≤ H - ENLARGED_RADIUS)
    (hothers : ∀ k e, k ≠ i → objs[k]? = some e →
      e.held = false ∧ e.contained = false) :
    ((tick hypotR W H dt mouse (some i) g objs)[i]?).map
      (fun e => (e.x, e.y, e.vx, e.vy)) = some (mouse.1, mouse.2, 0, 0) := by
  have hmx1' : (100:ℝ) ≤ mouse.1 := by simpa [ENLARGED_RADIUS] using hmx1
  have hmx2' : mouse.1 ≤ W - 100 := by simpa [ENLARGED_RADIUS] using hmx2
  have hmy1' : (100:ℝ) ≤ mouse.2 := by simpa [ENLARGED_RADIUS] using hmy1
  have hmy2' : mouse.2 ≤ H - 100 := by simpa [ENLARGED_RADIUS] using hmy2
  -- entry i of the store entering the pairwise solver
  have hL4 : ((((objs.set i { b with px := mouse.1, py := mouse.2, x := mouse.1, y := mouse.2, vx := 0, vy := 0 }).map (Ball.update_size dt)).map (fun c => (c.apply_gravity dt).integrate dt)).map (enforceEntity W H))[i]? = some { b with px := mouse.1, py := mouse.2, x := mouse.1, y := mouse.2, vx := 0, vy := 0, radius := ENLARGED_RADIUS } := by
    rw [List.getElem?_map, List.getElem?_map, List.getElem?_map,
        List.getElem?_set_eq_of_lt _ (getElem?_lt_length hi)]
    simp only [Option.map_some']
    congr 1
    have hu : Ball.update_size dt { b with px := mouse.1, py := mouse.2, x := mouse.1, y := mouse.2, vx := 0, vy := 0 } = { b with px := mouse.1, py := mouse.2, x := mouse.1, y := mouse.2, vx := 0, vy := 0, radius := ENLARGED_RADIUS } := by
      unfold Ball.update_size
      rw [if_pos (show ({ b with px := mouse.1, py := mouse.2, x := mouse.1, y := mouse.2, vx := 0, vy := 0 } : Ball ℝ).held = true from hheld),
          if_neg (show ¬ ({ b with px := mouse.1, py := mouse.2, x := mouse.1, y := mouse.2, vx := 0, vy := 0 } : Ball ℝ).pickup_timer > 0 from not_lt.mpr hpt)]
    rw [hu]
    have hg2 : Ball.apply_gravity dt { b with px := mouse.1, py := mouse.2, x := mouse.1, y := mouse.2, vx := 0, vy := 0, radius := ENLARGED_RADIUS } = { b with px := mouse.1, py := mouse.2, x := mouse.1, y := mouse.2, vx := 0, vy := 0, radius := ENLARGED_RADIUS } := by
      unfold Ball.apply_gravity
      rw [if_neg (by simp [hheld])]
    rw [hg2]
    have hi2 : Ball.integrate dt { b with px := mouse.1, py := mouse.2, x := mouse.1, y := mouse.2, vx := 0, vy := 0, radius := ENLARGED_RADIUS } = { b with px := mouse.1, py := mouse.2, x := mouse.1, y := mouse.2, vx := 0, vy := 0, radius := ENLARGED_RADIUS } := by
      unfold Ball.integrate
      rw [if_neg (by simp [hheld])]
    rw [hi2]
    unfold enforceEntity
    rw [if_neg (show ¬ (({ b with px := mouse.1, py := mouse.2, x := mouse.1, y := mouse.2, vx := 0, vy := 0, radius := ENLARGED_RADIUS } : Ball ℝ).isContainer = true) by simp [hic])]
    exact enforce_inrange W H _
      (show ¬ (mouse.1 - (ENLARGED_RADIUS : ℝ) < 0) by
        simp only [ENLARGED_RADIUS]; push_neg; linarith)
      (show ¬ (mouse.1 + (ENLARGED_RADIUS : ℝ) > W) by
        simp only [ENLARGED_RADIUS]; push_neg; linarith)
      (show ¬ (mouse.2 - (ENLARGED_RADIUS : ℝ) < 0) by
        simp only [ENLARGED_RADIUS]; push_neg; linarith)
      (show ¬ (mouse.2 + (ENLARGED_RADIUS : ℝ) > H) by
        simp only [ENLARGED_RADIUS]; push_neg; linarith)
  -- every other entry of that store is mobile
  have hmob : ∀ k e, k ≠ i → ((((objs.set i { b with px := mouse.1, py := mouse.2, x := mouse.1, y := mouse.2, vx := 0, vy := 0 }).map (Ball.update_size dt)).map (fun c => (c.apply_gravity dt).integrate dt)).map (enforceEntity W H))[k]? = some e → (e.held || e.contained) = false := by
    intro k e hk he2
    rw [List.getElem?_map, List.getElem?_map, List.getElem?_map,
        List.getElem?_set_ne (fun h => hk h.symm)] at he2
    rcases hko : objs[k]? with _ | c
    · rw [hko] at he2
      simp at he2
    · rw [hko] at he2
      simp only [Option.map_some'] at he2
      obtain ⟨hch, hcc⟩ := hothers k c hk hko
      have he3 := Option.some.inj he2
      subst he3
      simp only [enforceEntity_held, enforceEntity_contained, integrate_held,
        integrate_contained, apply_gravity_held, apply_gravity_contained,
        update_size_held, update_size_contained, hch, hcc]
      rfl
  -- the pairwise solver leaves the held entry untouched
  have h5 := solvePairsPhase_preserve_immobile hypotR g ((((objs.set i { b with px := mouse.1, py := mouse.2, x := mouse.1, y := mouse.2, vx := 0, vy := 0 }).map (Ball.update_size dt)).map (fun c => (c.apply_gravity dt).integrate dt)).map (enforceEntity W H)) i { b with px := mouse.1, py := mouse.2, x := mouse.1, y := mouse.2, vx := 0, vy := 0, radius := ENLARGED_RADIUS } hL4 (by simp [hheld]) hmob
  -- the reconciliation sweep commits the predicted position, velocity zero
  have h6 := updatePhase_commit hypotR H dt (rebuildGrid (solvePairsPhase hypotR g ((((objs.set i { b with px := mouse.1, py := mouse.2, x := mouse.1, y := mouse.2, vx := 0, vy := 0 }).map (Ball.update_size dt)).map (fun c => (c.apply_gravity dt).integrate dt)).map (enforceEntity W H)))) (solvePairsPhase hypotR g ((((objs.set i { b with px := mouse.1, py := mouse.2, x := mouse.1, y := mouse.2, vx := 0, vy := 0 }).map (Ball.update_size dt)).map (fun c => (c.apply_gravity dt).integrate dt)).map (enforceEntity W H))) i { b with px := mouse.1, py := mouse.2, x := mouse.1, y := mouse.2, vx := 0, vy := 0, radius := ENLARGED_RADIUS } h5 (by exact hheld)
  -- the floor snap skips a held ball
  have h7 : (floorSnapPhase H (updatePhase hypotR H dt (rebuildGrid (solvePairsPhase hypotR g ((((objs.set i { b with px := mouse.1, py := mouse.2, x := mouse.1, y := mouse.2, vx := 0, vy := 0 }).map (Ball.update_size dt)).map (fun c => (c.apply_gravity dt).integrate dt)).map (enforceEntity W H)))) (solvePairsPhase hypotR g ((((objs.set i { b with px := mouse.1, py := mouse.2, x := mouse.1, y := mouse.2, vx := 0, vy := 0 }).map (Ball.update_size dt)).map (fun c => (c.apply_gravity dt).integrate dt)).map (enforceEntity W H)))))[i]? = some { b with px := mouse.1, py := mouse.2, x := mouse.1, y := mouse.2, vx := 0, vy := 0, radius := ENLARGED_RADIUS } := by
    unfold floorSnapPhase
    rw [List.getElem?_map, h6]
    simp only [Option.map_some']
    rw [if_neg (by simp [hheld])]
  unfold tick solve_free_constraints
  dsimp only
  simp only [hi]
  unfold specialCheckPhase
  simp only [h7, List.getElem?_mapIdx, Option.map_some']
  simp only [if_true]

theorem C3_witness :
    ((tick hypotR 800 800 (1/10) (400, 300) (some 0) emptyGrid
        [{ Ball.new (400:ℝ) 400 with held := true }])[0]?).map
      (fun e => (e.x, e.y, e.vx, e.vy)) = some (400, 300, 0, 0) :=
  C3_held_tracking 800 800 (1/10) (400, 300) emptyGrid
    [{ Ball.new (400:ℝ) 400 with held := true }] 0
    { Ball.new (400:ℝ) 400 with held := true }
    rfl rfl rfl rfl (by norm_num [Ball.new])
    (by norm_num [ENLARGED_RADIUS]) (by norm_num [ENLARGED_RADIUS])
    (by norm_num [ENLARGED_RADIUS]) (by norm_num [ENLARGED_RADIUS])
    (fun k e hk he => by
      cases k with
      | zero => exact absurd rfl hk
      | succ n => simp at he)

end BallsSim
